import Mathlib

/-!
Verification development for the crypto-telegram-bot repository.

The definitions below are a shallow embedding of the Python sources:
prices and money amounts are modelled as rationals, pandas series as
functions from a bar index to a value, NaN-able series as Option-valued
functions, and the per-symbol position bookkeeping of
trading_engine.run_strategy_and_update_positions as explicit state
passing over a Position option and a running portfolio total.
-/

namespace CryptoBot

/-- Side of a position, the string field side of trading_engine.Position
("long" or "short"). -/
inductive Side
| long
| short
deriving DecidableEq, Repr

/-- Embedding of the dataclass trading_engine.Position. -/
structure Position where
  side : Side
  entry_price : ℚ
  qty : ℚ
  notional : ℚ
  realized_pnl : ℚ
deriving DecidableEq, Repr

/-- trading_engine.PER_TRADE_NOTIONAL, the fixed notional per symbol. -/
def PER_TRADE_NOTIONAL : ℚ := 2000

/-- Open and close records emitted by the tick update (the messages pushed
to trade_events).  A close carries the realized delta of this close and
the cumulative realized pnl of the closed position after the addition
(pos.realized_pnl += realized in the source). -/
inductive TradeEvent
| closeEv (side : Side) (price realized cumAfter : ℚ)
| openEv (side : Side) (price qty : ℚ)
deriving DecidableEq, Repr

/-- State of one symbol after a tick: book entry, portfolio realized total,
events emitted during the tick. -/
structure TickResult where
  pos : Option Position
  total : ℚ
  events : List TradeEvent
deriving DecidableEq, Repr

/-- The close condition of trading_engine lines 114-118: a position is
closed when the decision is 0 or opposes the held side. -/
def closeCond (p : Position) (trade_signal : Int) : Bool :=
  trade_signal == 0
    || (trade_signal == 1 && p.side == Side.short)
    || (trade_signal == -1 && p.side == Side.long)

/-- Realized (or unrealized) pnl of a position at a price,
trading_engine lines 119-122: (last - entry) * qty for a long,
(entry - last) * qty for a short. -/
def realizedOf (p : Position) (last_price : ℚ) : ℚ :=
  match p.side with
  | Side.long => (last_price - p.entry_price) * p.qty
  | Side.short => (p.entry_price - last_price) * p.qty

/-- One per-symbol tick of trading_engine.run_strategy_and_update_positions
(lines 103-176): first the close step (close when holding and the decision
is 0 or opposite), then the open step (open when flat and the decision is
non-zero), with quantity PER_TRADE_NOTIONAL / last_price and a fresh
realized_pnl of 0 on open. -/
def tickSymbol (pos0 : Option Position) (total0 : ℚ) (trade_signal : Int)
    (last_price : ℚ) : TickResult :=
  let closed : Option Position × ℚ × List TradeEvent :=
    match pos0 with
    | some p =>
      if closeCond p trade_signal then
        let realized := realizedOf p last_price
        (none, total0 + realized,
          [TradeEvent.closeEv p.side last_price realized (p.realized_pnl + realized)])
      else (some p, total0, [])
    | none => (none, total0, [])
  match closed with
  | (some p, total1, evs1) => ⟨some p, total1, evs1⟩
  | (none, total1, evs1) =>
    if trade_signal == 0 then ⟨none, total1, evs1⟩
    else
      let side := if trade_signal == 1 then Side.long else Side.short
      let qty := PER_TRADE_NOTIONAL / last_price
      ⟨some ⟨side, last_price, qty, PER_TRADE_NOTIONAL, 0⟩, total1,
        evs1 ++ [TradeEvent.openEv side last_price qty]⟩

/-- Folding tickSymbol over a list of (decision, last price) ticks,
returning the final book entry, the final portfolio total and the
concatenated events. -/
def runTicks (pos : Option Position) (total : ℚ) :
    List (Int × ℚ) → Option Position × ℚ × List TradeEvent
  | [] => (pos, total, [])
  | (d, px) :: rest =>
    let r := tickSymbol pos total d px
    let rec2 := runTicks r.pos r.total rest
    (rec2.1, rec2.2.1, r.events ++ rec2.2.2)

/-- Like runTicks but keeping the whole trajectory: the TickResult after
each tick, in order. -/
def scanTicks (pos : Option Position) (total : ℚ) :
    List (Int × ℚ) → List TickResult
  | [] => []
  | (d, px) :: rest =>
    let r := tickSymbol pos total d px
    r :: scanTicks r.pos r.total rest

/-- Sum of the realized deltas of the close events in a list. -/
def sumCloseDeltas : List TradeEvent → ℚ
  | [] => 0
  | TradeEvent.closeEv _ _ r _ :: rest => r + sumCloseDeltas rest
  | TradeEvent.openEv _ _ _ :: rest => sumCloseDeltas rest

/-- The decision assignment written at trading_engine.py lines 93-97: the
simple engine signal when it is non-zero and equal to the main engine
signal, else 0.  This assignment is dead code: lines 99-101 of that file
are a stray duplicated fragment that is a SyntaxError, so the module
never imports and this policy executes nowhere in the program; the
runnable batch in main.py computes its decision with mainDecision
instead.  runBatch below keeps this policy because it models the symbol
loop of trading_engine.py as written. -/
def tradeSignal (simple_last main_last : Int) : Int :=
  if simple_last ≠ 0 ∧ simple_last = main_last then simple_last else 0

/-- Modelled from the spec wording of the Trade Decision Policy: the simple
engine state when non-zero and of the same sign as the confirmation
engine signal, else 0. -/
def decisionSpec (simple_last main_last : Int) : Int :=
  if simple_last ≠ 0 ∧ main_last ≠ 0 ∧ (0 < simple_last ↔ 0 < main_last)
  then simple_last else 0

/-- The decision rule of the runnable batch in main.py (line 108, feeding
the close condition of line 123 and the open condition of line 143): the
single strategy signal is used as the trade decision unconditionally,
with no agreement gating against a second engine. -/
def mainDecision (signal_last : Int) : Int := signal_last

/-- One line of the batch report: either the per-symbol error line appended
in the except branch of the symbol loop, or a normal per-symbol block. -/
inductive ReportLine (Sym ε : Type)
| errLine (s : Sym) (e : ε)
| okLine (s : Sym)
deriving DecidableEq

/-- Whether a fetch-or-compute result is the failure case. -/
def isErr {ε α : Type} : Except ε α → Bool
  | Except.error _ => true
  | Except.ok _ => false

/-- Result of a whole batch run: the position book, the portfolio realized
total, the report lines and the trade events. -/
structure BatchResult (Sym ε : Type) where
  book : Sym → Option Position
  total : ℚ
  report : List (ReportLine Sym ε)
  events : List TradeEvent

/-- The symbol loop of run_strategy_and_update_positions
(trading_engine.py lines 66-181; its runnable duplicate is
main.py lines 102-181 with the same try/except shape, where fetch and
signal computation precede every mutation): each symbol yields either a
failure (the except branch: append an error line and continue with the
next symbol, touching no state) or the fetched data (simple engine last
signal, main engine last signal, last price), which is turned into a
decision by tradeSignal and fed to tickSymbol. -/
def runBatch {Sym ε : Type} [DecidableEq Sym] (book : Sym → Option Position)
    (total : ℚ) : List (Sym × Except ε (Int × Int × ℚ)) → BatchResult Sym ε
  | [] => ⟨book, total, [], []⟩
  | (s, Except.error e) :: rest =>
    let r := runBatch book total rest
    ⟨r.book, r.total, ReportLine.errLine s e :: r.report, r.events⟩
  | (s, Except.ok (simple_last, main_last, px)) :: rest =>
    let t := tickSymbol (book s) total (tradeSignal simple_last main_last) px
    let book2 := fun s2 => if s2 = s then t.pos else book s2
    let r := runBatch book2 t.total rest
    ⟨r.book, r.total, ReportLine.okLine s :: r.report, t.events ++ r.events⟩

lemma sumCloseDeltas_append (a b : List TradeEvent) :
    sumCloseDeltas (a ++ b) = sumCloseDeltas a + sumCloseDeltas b := by
  induction a with
  | nil => simp [sumCloseDeltas]
  | cons e rest ih => cases e <;> simp [sumCloseDeltas, ih, add_assoc]

/-- C1: starting from a flat book with fixed notional 2000, the decision
sequence [+1, +1, -1, 0, -1] at last prices [100, 105, 95, 90, 110]
produces: tick 1 opens a Long of quantity 20; tick 2 makes no transition;
tick 3 closes the Long with realized (95-100)*20 = -100 and opens a Short
of quantity 2000/95 in the same tick; tick 4 closes the Short with
realized (95-90)*(2000/95); tick 5 opens a Short of quantity 2000/110;
and the portfolio realized total after tick 4 (and after tick 5) is
-100 + (95-90)*(2000/95). -/
theorem c1_position_scenario :
    scanTicks none 0 [(1, 100), (1, 105), (-1, 95), (0, 90), (-1, 110)] =
      [⟨some ⟨Side.long, 100, 20, 2000, 0⟩, 0,
          [TradeEvent.openEv Side.long 100 20]⟩,
        ⟨some ⟨Side.long, 100, 20, 2000, 0⟩, 0, []⟩,
        ⟨some ⟨Side.short, 95, 2000 / 95, 2000, 0⟩, -100,
          [TradeEvent.closeEv Side.long 95 ((95 - 100) * 20) ((95 - 100) * 20),
            TradeEvent.openEv Side.short 95 (2000 / 95)]⟩,
        ⟨none, -100 + (95 - 90) * (2000 / 95),
          [TradeEvent.closeEv Side.short 90 ((95 - 90) * (2000 / 95))
              ((95 - 90) * (2000 / 95))]⟩,
        ⟨some ⟨Side.short, 110, 2000 / 110, 2000, 0⟩,
          -100 + (95 - 90) * (2000 / 95),
          [TradeEvent.openEv Side.short 110 (2000 / 110)]⟩] := by
  have h1 : tickSymbol none 0 1 100 =
      ⟨some ⟨Side.long, 100, 20, 2000, 0⟩, 0, [TradeEvent.openEv Side.long 100 20]⟩ := by
    simp [tickSymbol, closeCond, realizedOf, PER_TRADE_NOTIONAL]
    try norm_num
  have h2 : tickSymbol (some ⟨Side.long, 100, 20, 2000, 0⟩) 0 1 105 =
      ⟨some ⟨Side.long, 100, 20, 2000, 0⟩, 0, []⟩ := by
    simp [tickSymbol, closeCond, realizedOf, PER_TRADE_NOTIONAL]
    try norm_num
  have h3 : tickSymbol (some ⟨Side.long, 100, 20, 2000, 0⟩) 0 (-1) 95 =
      ⟨some ⟨Side.short, 95, 2000 / 95, 2000, 0⟩, -100,
        [TradeEvent.closeEv Side.long 95 (-100) (-100),
          TradeEvent.openEv Side.short 95 (2000 / 95)]⟩ := by
    simp [tickSymbol, closeCond, realizedOf, PER_TRADE_NOTIONAL]
    try norm_num
  have h4 : tickSymbol (some ⟨Side.short, 95, 2000 / 95, 2000, 0⟩) (-100) 0 90 =
      ⟨none, -100 + (95 - 90) * (2000 / 95),
        [TradeEvent.closeEv Side.short 90 ((95 - 90) * (2000 / 95))
          ((95 - 90) * (2000 / 95))]⟩ := by
    simp [tickSymbol, closeCond, realizedOf, PER_TRADE_NOTIONAL]
    try norm_num
  have h5 : tickSymbol none (-100 + (95 - 90) * (2000 / 95)) (-1) 110 =
      ⟨some ⟨Side.short, 110, 2000 / 110, 2000, 0⟩, -100 + (95 - 90) * (2000 / 95),
        [TradeEvent.openEv Side.short 110 (2000 / 110)]⟩ := by
    simp [tickSymbol, closeCond, realizedOf, PER_TRADE_NOTIONAL]
    try norm_num
  simp [scanTicks, h1, h2, h3, h4, h5]
  try norm_num

/-- C2 (code bug): the claimed agreement policy exists only in
trading_engine.py, which never parses (the duplicated fragment at its
lines 99-101 is a SyntaxError), so it executes nowhere; the runnable
batch of main.py uses the strategy signal unconditionally.  At the
failing input - strategy signal +1, confirmation signal 0, flat book,
price 100 - the running decision rule opens a long position while the
claimed policy yields decision 0 and stays flat. -/
theorem c2_decision_code_bug :
    mainDecision 1 = 1
      ∧ decisionSpec 1 0 = 0
      ∧ (tickSymbol none 0 (mainDecision 1) 100).pos
          = some ⟨Side.long, 100, 20, 2000, 0⟩
      ∧ (tickSymbol none 0 (decisionSpec 1 0) 100).pos = none := by
  have h1 : tickSymbol none 0 1 100 =
      ⟨some ⟨Side.long, 100, 20, 2000, 0⟩, 0, [TradeEvent.openEv Side.long 100 20]⟩ := by
    simp [tickSymbol, closeCond, realizedOf, PER_TRADE_NOTIONAL]
    try norm_num
  have h0 : tickSymbol none 0 0 100 = ⟨none, 0, []⟩ := by
    simp [tickSymbol]
  refine ⟨rfl, by decide, ?_, ?_⟩
  · rw [show mainDecision 1 = 1 from rfl, h1]
  · rw [show decisionSpec 1 0 = 0 from by decide, h0]

/-- C4 counterexample: after decisions [+1, 0, +1] at prices
[100, 110, 100] the symbol has one past close with realized delta 200,
yet the book entry holds a position whose realized_pnl is 0: the
per-symbol realized total is reset when a new position opens, so it does
not equal the sum of the realized deltas of the past closes. -/
theorem c4_realized_counterexample :
    (runTicks none 0 [(1, 100), (0, 110), (1, 100)]).1 =
        some ⟨Side.long, 100, 20, 2000, 0⟩
      ∧ sumCloseDeltas (runTicks none 0 [(1, 100), (0, 110), (1, 100)]).2.2 = 200
      ∧ (0 : ℚ) ≠ 200 := by
  have t1 : tickSymbol none 0 1 100 =
      ⟨some ⟨Side.long, 100, 20, 2000, 0⟩, 0, [TradeEvent.openEv Side.long 100 20]⟩ := by
    simp [tickSymbol, closeCond, realizedOf, PER_TRADE_NOTIONAL]
    try norm_num
  have t2 : tickSymbol (some ⟨Side.long, 100, 20, 2000, 0⟩) 0 0 110 =
      ⟨none, 200, [TradeEvent.closeEv Side.long 110 200 200]⟩ := by
    simp [tickSymbol, closeCond, realizedOf, PER_TRADE_NOTIONAL]
    try norm_num
  have t3 : tickSymbol none 200 1 100 =
      ⟨some ⟨Side.long, 100, 20, 2000, 0⟩, 200, [TradeEvent.openEv Side.long 100 20]⟩ := by
    simp [tickSymbol, closeCond, realizedOf, PER_TRADE_NOTIONAL]
    try norm_num
  have hrun : runTicks none 0 [(1, 100), (0, 110), (1, 100)] =
      (some ⟨Side.long, 100, 20, 2000, 0⟩, 200,
        [TradeEvent.openEv Side.long 100 20,
          TradeEvent.closeEv Side.long 110 200 200,
          TradeEvent.openEv Side.long 100 20]) := by
    simp [runTicks, t1, t2, t3]
  exact ⟨by rw [hrun], by rw [hrun]; simp [sumCloseDeltas], by norm_num⟩

/-- C4 amended: the portfolio realized total changes exactly by the sum of
the realized deltas of the close events of each tick (so it changes only
on a Close and accumulates every past close), while the book entry after
a tick is either the unchanged pre-existing position or a freshly opened
position whose realized_pnl is 0 — the per-position realized pnl does not
persist across closes. -/
theorem c4_realized_amended :
    (∀ (pos : Option Position) (total : ℚ) (d : Int) (px : ℚ),
        (tickSymbol pos total d px).total
          = total + sumCloseDeltas (tickSymbol pos total d px).events)
      ∧ (∀ (pos : Option Position) (total : ℚ) (ticks : List (Int × ℚ)),
          (runTicks pos total ticks).2.1
            = total + sumCloseDeltas (runTicks pos total ticks).2.2)
      ∧ (∀ (pos : Option Position) (total : ℚ) (d : Int) (px : ℚ) (p : Position),
          (tickSymbol pos total d px).pos = some p →
            pos = some p ∨ p.realized_pnl = 0) := by
  have hTick : ∀ (pos : Option Position) (total : ℚ) (d : Int) (px : ℚ),
      (tickSymbol pos total d px).total
        = total + sumCloseDeltas (tickSymbol pos total d px).events := by
    intro pos total d px
    cases pos with
    | none =>
      by_cases h0 : d = 0 <;>
        simp [tickSymbol, h0, sumCloseDeltas]
    | some p =>
      rcases eq_or_ne d 0 with h0 | h0
      · subst h0
        have hc : closeCond p 0 = true := by simp [closeCond]
        simp [tickSymbol, hc, sumCloseDeltas, sumCloseDeltas_append]
      · by_cases hc : closeCond p d <;>
          simp [tickSymbol, hc, h0, sumCloseDeltas, sumCloseDeltas_append]
  refine ⟨hTick, ?_, ?_⟩
  · intro pos total ticks
    induction ticks generalizing pos total with
    | nil => simp [runTicks, sumCloseDeltas]
    | cons tk rest ih =>
      obtain ⟨d, px⟩ := tk
      simp only [runTicks]
      rw [sumCloseDeltas_append, ih, hTick]
      ring
  · intro pos total d px p hp
    cases pos with
    | none =>
      by_cases h0 : d = 0
      · simp [tickSymbol, h0] at hp
      · simp [tickSymbol, h0] at hp
        right
        rw [← hp]
    | some q =>
      rcases eq_or_ne d 0 with h0 | h0
      · subst h0
        have hc : closeCond q 0 = true := by simp [closeCond]
        simp [tickSymbol, hc] at hp
      · by_cases hc : closeCond q d
        · simp [tickSymbol, hc, h0] at hp
          right
          rw [← hp]
        · simp [tickSymbol, hc] at hp
          left
          rw [hp]

/-- Witness for C4 amended, at a concrete closing tick and a concrete
opening tick. -/
theorem c4_realized_amended_witness :
    ((tickSymbol (some ⟨Side.long, 100, 20, 2000, 0⟩) 0 0 110).total
        = 0 + sumCloseDeltas (tickSymbol (some ⟨Side.long, 100, 20, 2000, 0⟩) 0 0 110).events)
      ∧ ((none : Option Position) = some ⟨Side.long, 100, 20, 2000, 0⟩
          ∨ (⟨Side.long, 100, 20, 2000, 0⟩ : Position).realized_pnl = 0) :=
  ⟨c4_realized_amended.1 (some ⟨Side.long, 100, 20, 2000, 0⟩) 0 0 110,
    c4_realized_amended.2.2 none 0 1 100 ⟨Side.long, 100, 20, 2000, 0⟩
      (by simp [tickSymbol, PER_TRADE_NOTIONAL]; norm_num)⟩

/-- C8: a failed per-symbol fetch-or-compute is isolated: the failing
symbol prepends an error line while the book and total are passed on
unchanged, every input is still processed (one report line per input),
and if every entry of a symbol in the batch failed then that symbol's
book entry is exactly what it was before the batch. -/
theorem c8_error_isolation {Sym ε : Type} [DecidableEq Sym] :
    (∀ (book : Sym → Option Position) (total : ℚ) (s : Sym) (e : ε)
        (rest : List (Sym × Except ε (Int × Int × ℚ))),
        runBatch book total ((s, Except.error e) :: rest)
          = ⟨(runBatch book total rest).book, (runBatch book total rest).total,
              ReportLine.errLine s e :: (runBatch book total rest).report,
              (runBatch book total rest).events⟩)
      ∧ (∀ (inputs : List (Sym × Except ε (Int × Int × ℚ)))
          (book : Sym → Option Position) (total : ℚ),
          (runBatch book total inputs).report.length = inputs.length)
      ∧ (∀ (inputs : List (Sym × Except ε (Int × Int × ℚ)))
          (book : Sym → Option Position) (total : ℚ) (s : Sym),
          (∀ pr ∈ inputs, pr.1 = s → isErr pr.2 = true) →
          (runBatch book total inputs).book s = book s) := by
  refine ⟨fun book total s e rest => rfl, ?_, ?_⟩
  · intro inputs
    induction inputs with
    | nil => intro book total; simp [runBatch]
    | cons pr rest ih =>
      intro book total
      obtain ⟨s2, r2⟩ := pr
      cases r2 with
      | error e => simp [runBatch, ih]
      | ok v =>
        obtain ⟨a, b, c⟩ := v
        simp [runBatch, ih]
  · intro inputs
    induction inputs with
    | nil => intro book total s h; simp [runBatch]
    | cons pr rest ih =>
      intro book total s h
      obtain ⟨s2, r2⟩ := pr
      cases r2 with
      | error e =>
        simp only [runBatch]
        exact ih book total s fun q hq hqs => h q (List.mem_cons_of_mem _ hq) hqs
      | ok v =>
        obtain ⟨a, b, c⟩ := v
        have hne : s2 ≠ s := by
          intro hcontra
          have := h (s2, Except.ok (a, b, c)) (List.mem_cons_self _ _) hcontra
          simp [isErr] at this
        simp only [runBatch]
        rw [ih _ _ s fun q hq hqs => h q (List.mem_cons_of_mem _ hq) hqs]
        exact if_neg fun h2 => hne h2.symm

/-- Witness for C8: a two-symbol batch over Bool symbol names where the
first symbol fails and the second trades; the failed symbol keeps its
pre-tick book entry and both inputs produce a report line. -/
theorem c8_error_isolation_witness :
    (runBatch (fun _ => none) 0
        [(true, Except.error ()), (false, Except.ok (1, 1, 100))]).book true
      = (fun _ : Bool => (none : Option Position)) true :=
  c8_error_isolation.2.2
    [(true, Except.error ()), (false, Except.ok (1, 1, 100))]
    (fun _ => none) 0 true
    (by decide)

/-- pandas ewm(span, adjust=False).mean() as a recursion: the value at bar 0
is the first sample, and each later value is the convex combination of the
previous smoothed value and the new sample with weight a. -/
def ewmRec (x : ℕ → ℚ) (a : ℚ) : ℕ → ℚ
  | 0 => x 0
  | t + 1 => (1 - a) * ewmRec x a t + a * x (t + 1)

/-- multi_tf_midterm_strategy.ema (and the inline ewm calls of the other
strategies): exponential moving average with alpha = 2 / (span + 1). -/
def ema (x : ℕ → ℚ) (span : ℕ) : ℕ → ℚ := ewmRec x (2 / ((span : ℚ) + 1))

/-- The MACD line of multi_tf_midterm_strategy.macd and the _calc_macd
methods: fast EMA minus slow EMA. -/
def macdLine (x : ℕ → ℚ) (fast slow : ℕ) : ℕ → ℚ :=
  fun t => ema x fast t - ema x slow t

/-- The MACD signal line: EMA of the MACD line over the signal span. -/
def macdSignalLine (x : ℕ → ℚ) (fast slow sg : ℕ) : ℕ → ℚ :=
  ema (macdLine x fast slow) sg

/-- The MACD histogram: line minus signal line. -/
def macdHist (x : ℕ → ℚ) (fast slow sg : ℕ) : ℕ → ℚ :=
  fun t => macdLine x fast slow t - macdSignalLine x fast slow sg t

/-- Per-bar gain of the RSI pipelines: the positive part of the close diff,
with the NaN diff of bar 0 coerced to 0 exactly as delta.where does. -/
def gainF (x : ℕ → ℚ) : ℕ → ℚ
  | 0 => 0
  | t + 1 => max (x (t + 1) - x t) 0

/-- Per-bar loss of the RSI pipelines: the positive part of minus the diff. -/
def lossF (x : ℕ → ℚ) : ℕ → ℚ
  | 0 => 0
  | t + 1 => max (x t - x (t + 1)) 0

/-- Sum of f over the n indices a, a+1, ..., a+n-1. -/
def sumRange (f : ℕ → ℚ) (a : ℕ) : ℕ → ℚ
  | 0 => 0
  | n + 1 => sumRange f a n + f (a + n)

/-- rolling(period, min_periods=period).mean(): defined (non-NaN) from bar
period-1 on, as the plain mean of the trailing window of that length. -/
def rollMeanStrict (f : ℕ → ℚ) (period t : ℕ) : Option ℚ :=
  if 0 < period ∧ period ≤ t + 1
  then some (sumRange f (t + 1 - period) period / (period : ℚ))
  else none

/-- Rolling average gain of the RSI pipelines. -/
def avg_gain (x : ℕ → ℚ) (period t : ℕ) : Option ℚ :=
  rollMeanStrict (gainF x) period t

/-- Rolling average loss of the RSI pipelines. -/
def avg_loss (x : ℕ → ℚ) (period t : ℕ) : Option ℚ :=
  rollMeanStrict (lossF x) period t

/-- multi_tf_midterm_strategy.rsi: rs = avg_gain / avg_loss.replace(0, nan),
so a window whose average loss is 0 has an undefined (NaN) RSI; otherwise
RSI = 100 - 100 / (1 + rs). -/
def rsiMTF (x : ℕ → ℚ) (period t : ℕ) : Option ℚ :=
  match avg_gain x period t, avg_loss x period t with
  | some g, some l =>
    if l = 0 then none else some (100 - 100 / (1 + g / l))
  | _, _ => none

/-- SimpleMACDStrategy._calc_rsi and MACDRSIStrategy._calc_rsi: the plain
quotient rs = avg_gain / avg_loss under IEEE float semantics: a positive
average gain over a zero average loss gives rs = +inf and
100 - 100 / (1 + inf) evaluates to exactly 100, while 0 / 0 is NaN
(undefined); any other window gives 100 - 100 / (1 + rs). -/
def rsiPlain (x : ℕ → ℚ) (period t : ℕ) : Option ℚ :=
  match avg_gain x period t, avg_loss x period t with
  | some g, some l =>
    if l = 0 then (if 0 < g then some 100 else none)
    else some (100 - 100 / (1 + g / l))
  | _, _ => none

lemma gainF_nonneg (x : ℕ → ℚ) : ∀ t, 0 ≤ gainF x t := by
  intro t
  cases t with
  | zero => simp [gainF]
  | succ t => simp [gainF]

lemma lossF_nonneg (x : ℕ → ℚ) : ∀ t, 0 ≤ lossF x t := by
  intro t
  cases t with
  | zero => simp [lossF]
  | succ t => simp [lossF]

lemma sumRange_nonneg (f : ℕ → ℚ) (h : ∀ i, 0 ≤ f i) (a : ℕ) :
    ∀ n, 0 ≤ sumRange f a n := by
  intro n
  induction n with
  | zero => simp [sumRange]
  | succ n ih => simpa [sumRange] using add_nonneg ih (h (a + n))

lemma rollMeanStrict_nonneg (f : ℕ → ℚ) (h : ∀ i, 0 ≤ f i) (period t : ℕ)
    (v : ℚ) (hv : rollMeanStrict f period t = some v) : 0 ≤ v := by
  unfold rollMeanStrict at hv
  split at hv
  · rename_i hcond
    obtain ⟨hv⟩ := hv
    exact div_nonneg (sumRange_nonneg f h _ _) (by exact_mod_cast hcond.1.le)
  · exact absurd hv (by simp)

/-- C9: the EMA satisfies the recursive identity EMA[0] = price[0] and
EMA[t] = EMA[t-1] + (2/(span+1)) * (price[t] - EMA[t-1]) for all t > 0. -/
theorem c9_ema_recursion (x : ℕ → ℚ) (span : ℕ) :
    ema x span 0 = x 0
      ∧ ∀ t : ℕ, ema x span (t + 1)
          = ema x span t + (2 / ((span : ℚ) + 1)) * (x (t + 1) - ema x span t) := by
  refine ⟨rfl, fun t => ?_⟩
  simp only [ema]
  rw [show ewmRec x (2 / ((span : ℚ) + 1)) (t + 1)
        = (1 - 2 / ((span : ℚ) + 1)) * ewmRec x (2 / ((span : ℚ) + 1)) t
          + (2 / ((span : ℚ) + 1)) * x (t + 1) from rfl]
  ring

/-- C3 counterexample: on the strictly increasing close series t at
period 2 and bar 2 the average loss is 0 and the average gain is 1 > 0,
yet the multi-timeframe rsi is undefined (NaN) there, not 100. -/
theorem c3_rsi_counterexample :
    avg_gain (fun t => (t : ℚ)) 2 2 = some 1
      ∧ avg_loss (fun t => (t : ℚ)) 2 2 = some 0
      ∧ rsiMTF (fun t => (t : ℚ)) 2 2 = none
      ∧ (none : Option ℚ) ≠ some 100 := by
  have hg : avg_gain (fun t => (t : ℚ)) 2 2 = some 1 := by
    norm_num [avg_gain, rollMeanStrict, sumRange, gainF]
  have hl : avg_loss (fun t => (t : ℚ)) 2 2 = some 0 := by
    norm_num [avg_loss, rollMeanStrict, sumRange, lossF]
  refine ⟨hg, hl, ?_, by simp⟩
  rw [rsiMTF, hg, hl]
  simp

/-- C3 amended: wherever either RSI is defined its value lies in [0, 100];
at a bar whose average loss is 0 and average gain is positive, the simple
strategy RSI (_calc_rsi, plain quotient) is exactly 100, while the
multi-timeframe rsi (with replace(0, nan)) is undefined rather than 100. -/
theorem c3_rsi_amended (x : ℕ → ℚ) (period t : ℕ) :
    (∀ r, rsiMTF x period t = some r → 0 ≤ r ∧ r ≤ 100)
      ∧ (∀ r, rsiPlain x period t = some r → 0 ≤ r ∧ r ≤ 100)
      ∧ (∀ g, avg_loss x period t = some 0 → avg_gain x period t = some g →
          0 < g → rsiPlain x period t = some 100 ∧ rsiMTF x period t = none) := by
  have hbound : ∀ g l : ℚ, 0 ≤ g → 0 < l →
      0 ≤ 100 - 100 / (1 + g / l) ∧ 100 - 100 / (1 + g / l) ≤ 100 := by
    intro g l hg hl
    have hrs : 0 ≤ g / l := div_nonneg hg hl.le
    have h1 : (0 : ℚ) < 1 + g / l := by linarith
    have h2 : 100 / (1 + g / l) ≤ 100 := by
      rw [div_le_iff₀ h1]
      nlinarith
    have h3 : 0 < 100 / (1 + g / l) := by positivity
    constructor <;> linarith
  refine ⟨?_, ?_, ?_⟩
  · intro r hr
    unfold rsiMTF at hr
    rcases hG : avg_gain x period t with _ | g <;> rw [hG] at hr
    · simp at hr
    rcases hL : avg_loss x period t with _ | l <;> rw [hL] at hr
    · simp at hr
    by_cases hl0 : l = 0
    · simp [hl0] at hr
    · simp [hl0] at hr
      have hg := rollMeanStrict_nonneg _ (gainF_nonneg x) period t g hG
      have hl := rollMeanStrict_nonneg _ (lossF_nonneg x) period t l hL
      rw [← hr]
      exact hbound g l hg (lt_of_le_of_ne hl (Ne.symm hl0))
  · intro r hr
    unfold rsiPlain at hr
    rcases hG : avg_gain x period t with _ | g <;> rw [hG] at hr
    · simp at hr
    rcases hL : avg_loss x period t with _ | l <;> rw [hL] at hr
    · simp at hr
    by_cases hl0 : l = 0
    · simp only [hl0, if_true, eq_self_iff_true] at hr
      by_cases hg0 : 0 < g
      · simp [hg0] at hr
        rw [← hr]
        norm_num
      · simp [hl0, hg0] at hr
    · simp [hl0] at hr
      have hg := rollMeanStrict_nonneg _ (gainF_nonneg x) period t g hG
      have hl := rollMeanStrict_nonneg _ (lossF_nonneg x) period t l hL
      rw [← hr]
      exact hbound g l hg (lt_of_le_of_ne hl (Ne.symm hl0))
  · intro g hL hG hgpos
    constructor
    · unfold rsiPlain
      rw [hG, hL]
      simp [hgpos]
    · unfold rsiMTF
      rw [hG, hL]
      simp

/-- Witness for C3 amended at the concrete series t with period 2, bar 2:
the plain RSI is exactly 100 and the bound holds there. -/
theorem c3_rsi_amended_witness :
    (rsiPlain (fun t => (t : ℚ)) 2 2 = some 100
        ∧ rsiMTF (fun t => (t : ℚ)) 2 2 = none)
      ∧ (0 ≤ (100 : ℚ) ∧ (100 : ℚ) ≤ 100) := by
  have hg : avg_gain (fun t => (t : ℚ)) 2 2 = some 1 := by
    norm_num [avg_gain, rollMeanStrict, sumRange, gainF]
  have hl : avg_loss (fun t => (t : ℚ)) 2 2 = some 0 := by
    norm_num [avg_loss, rollMeanStrict, sumRange, lossF]
  have h := (c3_rsi_amended (fun t => (t : ℚ)) 2 2).2.2 1 hl hg (by norm_num)
  exact ⟨h, (c3_rsi_amended (fun t => (t : ℚ)) 2 2).2.1 100 h.1⟩

/-- simple_strategy.SimpleMACDStrategyConfig with its defaults. -/
structure SimpleMACDStrategyConfig where
  macd_fast : ℕ := 12
  macd_slow : ℕ := 26
  macd_signal : ℕ := 9
  ema_trend_period : ℕ := 120
  ema_trigger_period : ℕ := 34
  rsi_period : ℕ := 14
  rsi_long_threshold : ℚ := 55
  rsi_short_threshold : ℚ := 45
  hist_strength : ℚ := 0
  hist_lookback : ℕ := 3

/-- The macd column of SimpleMACDStrategy._calc_macd. -/
def smacd (cfg : SimpleMACDStrategyConfig) (close : ℕ → ℚ) : ℕ → ℚ :=
  macdLine close cfg.macd_fast cfg.macd_slow

/-- The macd_signal column of SimpleMACDStrategy._calc_macd. -/
def smacdSig (cfg : SimpleMACDStrategyConfig) (close : ℕ → ℚ) : ℕ → ℚ :=
  macdSignalLine close cfg.macd_fast cfg.macd_slow cfg.macd_signal

/-- The macd_hist column of SimpleMACDStrategy._calc_macd. -/
def smacdHist (cfg : SimpleMACDStrategyConfig) (close : ℕ → ℚ) : ℕ → ℚ :=
  macdHist close cfg.macd_fast cfg.macd_slow cfg.macd_signal

/-- The ema_trend column of generate_signals. -/
def ema_trend (cfg : SimpleMACDStrategyConfig) (close : ℕ → ℚ) : ℕ → ℚ :=
  ema close cfg.ema_trend_period

/-- The ema_trigger column of generate_signals. -/
def ema_trigger (cfg : SimpleMACDStrategyConfig) (close : ℕ → ℚ) : ℕ → ℚ :=
  ema close cfg.ema_trigger_period

/-- The rsi column of generate_signals, by _calc_rsi. -/
def srsi (cfg : SimpleMACDStrategyConfig) (close : ℕ → ℚ) (t : ℕ) : Option ℚ :=
  rsiPlain close cfg.rsi_period t

/-- rolling(w, min_periods=1).mean() over a NaN-free series: the mean of
the trailing window truncated at bar 0. -/
def rollMeanSoft (f : ℕ → ℚ) (w t : ℕ) : ℚ :=
  sumRange f (t + 1 - min w (t + 1)) (min w (t + 1)) / ((min w (t + 1) : ℕ) : ℚ)

/-- The hist_roll series of generate_signals. -/
def hist_roll (cfg : SimpleMACDStrategyConfig) (close : ℕ → ℚ) (t : ℕ) : ℚ :=
  rollMeanSoft (smacdHist cfg close) cfg.hist_lookback t

/-- long_trend: close above the trend EMA. -/
def long_trend (cfg : SimpleMACDStrategyConfig) (close : ℕ → ℚ) (t : ℕ) : Bool :=
  decide (ema_trend cfg close t < close t)

/-- short_trend: close below the trend EMA. -/
def short_trend (cfg : SimpleMACDStrategyConfig) (close : ℕ → ℚ) (t : ℕ) : Bool :=
  decide (close t < ema_trend cfg close t)

/-- long_rsi_ok: rsi at or above the long threshold; a NaN rsi compares
False. -/
def long_rsi_ok (cfg : SimpleMACDStrategyConfig) (close : ℕ → ℚ) (t : ℕ) : Bool :=
  match srsi cfg close t with
  | some r => decide (cfg.rsi_long_threshold ≤ r)
  | none => false

/-- short_rsi_ok: rsi at or below the short threshold; NaN compares False. -/
def short_rsi_ok (cfg : SimpleMACDStrategyConfig) (close : ℕ → ℚ) (t : ℕ) : Bool :=
  match srsi cfg close t with
  | some r => decide (r ≤ cfg.rsi_short_threshold)
  | none => false

/-- long_hist_ok: rolling hist mean at or above hist_strength. -/
def long_hist_ok (cfg : SimpleMACDStrategyConfig) (close : ℕ → ℚ) (t : ℕ) : Bool :=
  decide (cfg.hist_strength ≤ hist_roll cfg close t)

/-- short_hist_ok, with the conditional on hist_strength of line 83. -/
def short_hist_ok (cfg : SimpleMACDStrategyConfig) (close : ℕ → ℚ) (t : ℕ) : Bool :=
  if 0 < cfg.hist_strength
  then decide (hist_roll cfg close t ≤ -cfg.hist_strength)
  else decide (hist_roll cfg close t ≤ cfg.hist_strength)

/-- macd_cross_up: macd above its signal line at t and not above at t-1;
the shifted NaN of bar 0 makes the condition False there. -/
def macd_cross_up (cfg : SimpleMACDStrategyConfig) (close : ℕ → ℚ) : ℕ → Bool
  | 0 => false
  | t + 1 =>
    decide (smacdSig cfg close (t + 1) < smacd cfg close (t + 1))
      && decide (smacd cfg close t ≤ smacdSig cfg close t)

/-- macd_cross_down, the mirror of macd_cross_up. -/
def macd_cross_down (cfg : SimpleMACDStrategyConfig) (close : ℕ → ℚ) : ℕ → Bool
  | 0 => false
  | t + 1 =>
    decide (smacd cfg close (t + 1) < smacdSig cfg close (t + 1))
      && decide (smacdSig cfg close t ≤ smacd cfg close t)

/-- long_entry = cross up with trend, rsi and hist filters. -/
def long_entry (cfg : SimpleMACDStrategyConfig) (close : ℕ → ℚ) (t : ℕ) : Bool :=
  macd_cross_up cfg close t && long_trend cfg close t
    && long_rsi_ok cfg close t && long_hist_ok cfg close t

/-- short_entry = cross down with the mirrored filters. -/
def short_entry (cfg : SimpleMACDStrategyConfig) (close : ℕ → ℚ) (t : ℕ) : Bool :=
  macd_cross_down cfg close t && short_trend cfg close t
    && short_rsi_ok cfg close t && short_hist_ok cfg close t

/-- exit_long of lines 102-106: hist negative, or close below the trigger
EMA, or rsi below 50 (a NaN rsi compares False, and fillna(False)). -/
def exit_long (cfg : SimpleMACDStrategyConfig) (close : ℕ → ℚ) (t : ℕ) : Bool :=
  decide (smacdHist cfg close t < 0)
    || decide (close t < ema_trigger cfg close t)
    || (match srsi cfg close t with
        | some r => decide (r < 50)
        | none => false)

/-- exit_short of lines 107-111, the mirror of exit_long. -/
def exit_short (cfg : SimpleMACDStrategyConfig) (close : ℕ → ℚ) (t : ℕ) : Bool :=
  decide (0 < smacdHist cfg close t)
    || decide (ema_trigger cfg close t < close t)
    || (match srsi cfg close t with
        | some r => decide (50 < r)
        | none => false)

/-- The body of the Python loop of generate_signals lines 115-130: exits
first (an if/elif pair), then entries override. -/
def stepState (current : Int) (entryL entryS exitL exitS : Bool) : Int :=
  let afterExit :=
    if current == 1 && exitL then 0
    else if current == -1 && exitS then 0
    else current
  if entryL then 1 else if entryS then -1 else afterExit

/-- The simple_signal column: the state after processing bars 0..t in
order, starting from 0, exactly as the Python loop accumulates current. -/
def simple_signal (cfg : SimpleMACDStrategyConfig) (close : ℕ → ℚ) : ℕ → Int
  | 0 => stepState 0 (long_entry cfg close 0) (short_entry cfg close 0)
      (exit_long cfg close 0) (exit_short cfg close 0)
  | t + 1 => stepState (simple_signal cfg close t)
      (long_entry cfg close (t + 1)) (short_entry cfg close (t + 1))
      (exit_long cfg close (t + 1)) (exit_short cfg close (t + 1))

/-- Modelled from the spec wording of the Simple Signal Engine: at each bar
first transition Long to Flat on a long exit (Short to Flat on the
mirrored exit), then set Long on a filtered bullish cross or Short on a
filtered bearish cross; the flag tuple is (long entry, short entry, long
exit, short exit). -/
def specStep (s : Int) (f : Bool × Bool × Bool × Bool) : Int :=
  let afterExit :=
    if s = 1 ∧ f.2.2.1 = true then 0
    else if s = -1 ∧ f.2.2.2 = true then 0
    else s
  if f.1 = true then 1 else if f.2.1 = true then -1 else afterExit

/-- Modelled from the spec wording: the emitted signal at bar t is the left
fold of the per-bar transition over bars 0..t starting from Flat (0). -/
def specFold (flags : ℕ → Bool × Bool × Bool × Bool) (t : ℕ) : Int :=
  (List.range (t + 1)).foldl (fun s i => specStep s (flags i)) 0

lemma stepState_eq_specStep (s : Int) (a b c d : Bool) :
    stepState s a b c d = specStep s (a, b, c, d) := by
  cases a <;> cases b <;> cases c <;> cases d <;>
    simp [stepState, specStep]

lemma specFold_succ (flags : ℕ → Bool × Bool × Bool × Bool) (t : ℕ) :
    specFold flags (t + 1) = specStep (specFold flags t) (flags (t + 1)) := by
  simp [specFold, List.range_succ]

/-- C5: the simple engine emitted signal at every bar equals the left fold,
over the bars in chronological order starting from Flat, of the
exit-then-entry transition applied to the pipeline flags of each bar; and
the fold is genuinely stateful: two flag streams agreeing at a bar can
emit different signals there. -/
theorem c5_simple_fold :
    (∀ (cfg : SimpleMACDStrategyConfig) (close : ℕ → ℚ) (t : ℕ),
        simple_signal cfg close t
          = specFold (fun i => (long_entry cfg close i, short_entry cfg close i,
              exit_long cfg close i, exit_short cfg close i)) t)
      ∧ (∃ f g : ℕ → Bool × Bool × Bool × Bool, ∃ t : ℕ,
          f t = g t ∧ specFold f t ≠ specFold g t) := by
  constructor
  · intro cfg close t
    induction t with
    | zero =>
      rw [simple_signal, specFold]
      simp [List.range_succ, stepState_eq_specStep]
    | succ t ih =>
      rw [simple_signal, specFold_succ, ih, stepState_eq_specStep]
  · refine ⟨fun i => (decide (i = 0), false, false, false),
      fun _ => (false, false, false, false), 1, by decide, by decide⟩

/-- A base-resolution price bar: timestamp (an abstract tick count) and
the ohlcv columns. -/
structure Bar where
  ts : ℕ
  op : ℚ
  hi : ℚ
  lo : ℚ
  cl : ℚ
  vol : ℚ
deriving DecidableEq, Repr

/-- The member bars of a bucket: the input bars whose timestamp the
resampling rule maps to the bucket key. -/
def membersOf (bars : List Bar) (bucketOf : ℕ → ℕ) (k : ℕ) : List Bar :=
  bars.filter (fun b => bucketOf b.ts == k)

/-- The agg dict of resample_ohlc: open = first member open, high = max of
member highs, low = min of member lows, close = last member close,
volume = sum of member volumes; an empty bucket aggregates to NaN rows
which the dropna removes, hence none. -/
def aggBucket (k : ℕ) : List Bar → Option Bar
  | [] => none
  | b :: bs => some ⟨k, b.op,
      (bs.map Bar.hi).foldl max b.hi,
      (bs.map Bar.lo).foldl min b.lo,
      (bs.map Bar.cl).getLastD b.cl,
      b.vol + (bs.map Bar.vol).sum⟩

/-- The ordered bucket keys the resampler generates: every key from the
smallest to the largest mapped key (pandas builds the full epoch-aligned
range; dropna then removes the empty buckets). -/
def bucketKeys (bars : List Bar) (bucketOf : ℕ → ℕ) : List ℕ :=
  match bars with
  | [] => []
  | b :: bs =>
    let keys := (b :: bs).map (fun x => bucketOf x.ts)
    let kmin := keys.foldl min (bucketOf b.ts)
    let kmax := keys.foldl max (bucketOf b.ts)
    (List.range (kmax + 1 - kmin)).map (fun i => i + kmin)

/-- multi_tf_midterm_strategy.resample_ohlc, and the inline 4h resample of
MACDRSIStrategy._calc_trend_4h: group the base bars into buckets by the
rule, aggregate each bucket, drop the empty buckets. -/
def resample_ohlc (bars : List Bar) (bucketOf : ℕ → ℕ) : List Bar :=
  (bucketKeys bars bucketOf).filterMap
    (fun k => aggBucket k (membersOf bars bucketOf k))

lemma getLast?_cons_getLastD {α : Type} (a : α) (l : List α) :
    (a :: l).getLast? = some (l.getLastD a) := by
  rw [List.getLast?_cons, List.getLastD_eq_getLast?]

/-- C6: every bucket of the resampled output aggregates a non-empty member
list, with open the first member open, high the maximum of member highs,
low the minimum of member lows, close the last member close and volume
the sum of member volumes; a bucket with no members never appears. -/
theorem c6_resample_agg (bars : List Bar) (bucketOf : ℕ → ℕ) (bkt : Bar)
    (hmem : bkt ∈ resample_ohlc bars bucketOf) :
    membersOf bars bucketOf bkt.ts ≠ []
      ∧ ((membersOf bars bucketOf bkt.ts).map Bar.op).head? = some bkt.op
      ∧ ((membersOf bars bucketOf bkt.ts).map Bar.hi).max? = some bkt.hi
      ∧ ((membersOf bars bucketOf bkt.ts).map Bar.lo).min? = some bkt.lo
      ∧ ((membersOf bars bucketOf bkt.ts).map Bar.cl).getLast? = some bkt.cl
      ∧ ((membersOf bars bucketOf bkt.ts).map Bar.vol).sum = bkt.vol := by
  unfold resample_ohlc at hmem
  rw [List.mem_filterMap] at hmem
  obtain ⟨k, _, hagg⟩ := hmem
  rcases h : membersOf bars bucketOf k with _ | ⟨b, bs⟩ <;> rw [h] at hagg
  · exact absurd hagg (by simp [aggBucket])
  · rw [aggBucket, Option.some.injEq] at hagg
    subst hagg
    dsimp only
    rw [h]
    exact ⟨by simp, rfl, rfl, rfl,
      by rw [List.map_cons, getLast?_cons_getLastD],
      by rw [List.map_cons, List.sum_cons]⟩

/-- Witness for C6: two bars falling in one bucket; the aggregated bucket
has the first open, the max high, the min low, the last close and the
summed volume. -/
theorem c6_resample_agg_witness :
    membersOf [⟨0, 1, 5, 0, 2, 10⟩, ⟨1, 2, 7, 1, 3, 10⟩] (fun _ => 0)
        (⟨0, 1, 7, 0, 3, 20⟩ : Bar).ts ≠ []
      ∧ ((membersOf [⟨0, 1, 5, 0, 2, 10⟩, ⟨1, 2, 7, 1, 3, 10⟩] (fun _ => 0)
          (⟨0, 1, 7, 0, 3, 20⟩ : Bar).ts).map Bar.op).head? = some 1 := by
  have hrun : resample_ohlc [⟨0, 1, 5, 0, 2, 10⟩, ⟨1, 2, 7, 1, 3, 10⟩] (fun _ => 0)
      = [⟨0, 1, 7, 0, 3, 20⟩] := by
    norm_num [resample_ohlc, bucketKeys, membersOf, aggBucket, List.filter,
      List.filterMap, List.range, List.range.loop, max_def, min_def]
  have h := c6_resample_agg [⟨0, 1, 5, 0, 2, 10⟩, ⟨1, 2, 7, 1, 3, 10⟩] (fun _ => 0)
    ⟨0, 1, 7, 0, 3, 20⟩ (by rw [hrun]; exact List.mem_singleton.mpr rfl)
  exact ⟨h.1, h.2.1⟩

/-- pandas reindex(base index, method="ffill") on an ascending bucket
index, looked up at one base timestamp (align_to_15m of
multi_tf_midterm_strategy and the reindex of MACDRSIStrategy
._calc_trend_4h): the value carried forward from the last bucket that
started at or before t, none (NaN) when every bucket starts later. -/
def ffillLookup {α : Type} : List (ℕ × α) → ℕ → Option α
  | [], _ => none
  | (k, v) :: rest, t =>
    if t < k then none
    else
      match ffillLookup rest t with
      | some w => some w
      | none => some v

/-- Modelled from the spec wording of the Multi-Timeframe Aligner: the
derived value of the latest bucket whose start is at most the timestamp. -/
def latestLE {α : Type} (pairs : List (ℕ × α)) (t : ℕ) : Option α :=
  ((pairs.filter (fun p => decide (p.1 ≤ t))).getLast?).map Prod.snd

/-- The aligned 4h trend of MACDRSIStrategy._calc_trend_4h: reindex with
ffill, then fillna(0), i.e. Neutral before the first bucket. -/
def trendAligned (pairs : List (ℕ × Int)) (t : ℕ) : Int :=
  (ffillLookup pairs t).getD 0

lemma ffillLookup_before_first {α : Type} :
    ∀ (pairs : List (ℕ × α)) (t : ℕ),
      (∀ p ∈ pairs, t < p.1) → ffillLookup pairs t = none := by
  intro pairs t h
  cases pairs with
  | nil => rfl
  | cons p rest =>
    obtain ⟨k, v⟩ := p
    rw [ffillLookup, if_pos (h (k, v) (List.mem_cons_self _ _))]

lemma ffillLookup_eq_latestLE {α : Type} :
    ∀ (pairs : List (ℕ × α)) (t : ℕ),
      List.Pairwise (fun p q => p.1 < q.1) pairs →
      ffillLookup pairs t = latestLE pairs t := by
  intro pairs
  induction pairs with
  | nil => intro t _; simp [ffillLookup, latestLE]
  | cons p rest ih =>
    intro t hp
    obtain ⟨k, v⟩ := p
    rw [List.pairwise_cons] at hp
    by_cases ht : t < k
    · have hfil : rest.filter (fun q => decide (q.1 ≤ t)) = [] := by
        rw [List.filter_eq_nil_iff]
        intro q hq
        have := hp.1 q hq
        simp only [decide_eq_true_eq]
        omega
      rw [ffillLookup, if_pos ht]
      unfold latestLE
      rw [List.filter_cons]
      have hc : (decide ((k, v).1 ≤ t)) = false := by
        simp only [decide_eq_false_iff_not]
        omega
      rw [hc]
      simp [hfil]
    · have hkt : k ≤ t := Nat.le_of_not_lt ht
      rw [ffillLookup, if_neg ht, ih t hp.2]
      unfold latestLE
      rw [List.filter_cons]
      have hc : (decide ((k, v).1 ≤ t)) = true := by simp [hkt]
      rw [hc]
      simp only [if_true]
      rw [getLast?_cons_getLastD, List.getLastD_eq_getLast?]
      cases hq : (rest.filter (fun q => decide (q.1 ≤ t))).getLast? with
      | none => simp [hq]
      | some q => simp [hq]

lemma ffillLookup_constant {α : Type} :
    ∀ (pairs : List (ℕ × α)) (t t2 : ℕ), t ≤ t2 →
      (∀ p ∈ pairs, ¬(t < p.1 ∧ p.1 ≤ t2)) →
      ffillLookup pairs t2 = ffillLookup pairs t := by
  intro pairs
  induction pairs with
  | nil => intro t t2 _ _; rfl
  | cons p rest ih =>
    intro t t2 htt h
    obtain ⟨k, v⟩ := p
    have hk := h (k, v) (List.mem_cons_self _ _)
    by_cases ht : t < k
    · have ht2 : t2 < k := by
        rcases Nat.lt_or_ge t2 k with h2 | h2
        · exact h2
        · exact absurd ⟨ht, h2⟩ hk
      rw [ffillLookup, if_pos ht2, ffillLookup, if_pos ht]
    · have ht2 : ¬t2 < k := by omega
      rw [ffillLookup, if_neg ht2, ffillLookup, if_neg ht,
        ih t t2 htt fun q hq => h q (List.mem_cons_of_mem _ hq)]

/-- C7: on an ascending bucket index the forward-fill lookup returns the
value of the latest bucket whose start is at most the timestamp; before
the first bucket it is undefined, and the macd_rsi variant maps that case
to 0 (Neutral), never Bull or Bear; and between two consecutive bucket
starts the looked-up value does not change. -/
theorem c7_ffill_align {α : Type} (pairs : List (ℕ × α)) (t t2 : ℕ)
    (hsorted : List.Pairwise (fun p q => p.1 < q.1) pairs) :
    ffillLookup pairs t = latestLE pairs t
      ∧ ((∀ p ∈ pairs, t < p.1) → ffillLookup pairs t = none)
      ∧ (t ≤ t2 → (∀ p ∈ pairs, ¬(t < p.1 ∧ p.1 ≤ t2)) →
          ffillLookup pairs t2 = ffillLookup pairs t)
      ∧ (∀ ipairs : List (ℕ × Int), (∀ p ∈ ipairs, t < p.1) →
          trendAligned ipairs t = 0) :=
  ⟨ffillLookup_eq_latestLE pairs t hsorted,
    ffillLookup_before_first pairs t,
    fun htt h => ffillLookup_constant pairs t t2 htt h,
    fun ipairs h => by rw [trendAligned, ffillLookup_before_first ipairs t h]; rfl⟩

/-- Witness for C7 on the concrete bucket series [(0, 1), (4, -1)] looked
up at t = 5 (and t2 = 7 with no bucket start in (5, 7]), plus the Neutral
fill before the first bucket of [(10, 1)]. -/
theorem c7_ffill_align_witness :
    ffillLookup [(0, (1 : Int)), (4, -1)] 5 = latestLE [(0, (1 : Int)), (4, -1)] 5
      ∧ ffillLookup [(0, (1 : Int)), (4, -1)] 7 = ffillLookup [(0, (1 : Int)), (4, -1)] 5
      ∧ trendAligned [(10, 1)] 5 = 0 := by
  have h := c7_ffill_align [(0, (1 : Int)), (4, -1)] 5 7 (by decide)
  exact ⟨h.1, h.2.2.1 (by decide) (by decide), h.2.2.2 [(10, 1)] (by decide)⟩

/-- multi_tf_midterm_strategy.MultiTFConfig with its defaults. -/
structure MultiTFConfig where
  macd_fast : ℕ := 12
  macd_slow : ℕ := 26
  macd_signal : ℕ := 9
  ema_fast : ℕ := 21
  ema_slow : ℕ := 55
  ema_pulback : ℕ := 89
  rsi_period : ℕ := 14
  atr_period : ℕ := 14
  rsi_trend_high : ℚ := 55
  rsi_trend_low : ℚ := 45
  rsi_reentry_up : ℚ := 50
  rsi_reentry_dn : ℚ := 50
  rsi_pullback_long : ℚ := 45
  rsi_pullback_short : ℚ := 55
  lookback_pullback_bars_1h : ℕ := 36
  lookback_break_15m : ℕ := 20
  atr_sl_mult : ℚ := 5 / 2
  rr_tp1 : ℚ := 2

/-- The ema_fast_15m column of MultiTFMidtermStrategy.generate_signals. -/
def ema_fast_15m (cfg : MultiTFConfig) (close : ℕ → ℚ) : ℕ → ℚ :=
  ema close cfg.ema_fast

/-- The ema_slow_15m column. -/
def ema_slow_15m (cfg : MultiTFConfig) (close : ℕ → ℚ) : ℕ → ℚ :=
  ema close cfg.ema_slow

/-- The rsi_15m column, by the multi-timeframe rsi. -/
def rsi_15m (cfg : MultiTFConfig) (close : ℕ → ℚ) (t : ℕ) : Option ℚ :=
  rsiMTF close cfg.rsi_period t

/-- cross_up_15m of line 168: the fast EMA above the slow at t and not
above at t-1 (the shifted NaN makes bar 0 False). -/
def cross_up_15m (cfg : MultiTFConfig) (close : ℕ → ℚ) : ℕ → Bool
  | 0 => false
  | t + 1 =>
    decide (ema_slow_15m cfg close (t + 1) < ema_fast_15m cfg close (t + 1))
      && decide (ema_fast_15m cfg close t ≤ ema_slow_15m cfg close t)

/-- cross_dn_15m of line 169, the strict mirror. -/
def cross_dn_15m (cfg : MultiTFConfig) (close : ℕ → ℚ) : ℕ → Bool
  | 0 => false
  | t + 1 =>
    decide (ema_fast_15m cfg close (t + 1) < ema_slow_15m cfg close (t + 1))
      && decide (ema_slow_15m cfg close t ≤ ema_fast_15m cfg close t)

/-- rsi_up_15m of line 170: rsi crosses up through the re-entry threshold;
a NaN on either side compares False. -/
def rsi_up_15m (cfg : MultiTFConfig) (close : ℕ → ℚ) : ℕ → Bool
  | 0 => false
  | t + 1 =>
    match rsi_15m cfg close (t + 1), rsi_15m cfg close t with
    | some a, some b =>
      decide (cfg.rsi_reentry_up < a) && decide (b ≤ cfg.rsi_reentry_up)
    | _, _ => false

/-- rsi_dn_15m of line 171, the mirror. -/
def rsi_dn_15m (cfg : MultiTFConfig) (close : ℕ → ℚ) : ℕ → Bool
  | 0 => false
  | t + 1 =>
    match rsi_15m cfg close (t + 1), rsi_15m cfg close t with
    | some a, some b =>
      decide (a < cfg.rsi_reentry_dn) && decide (cfg.rsi_reentry_dn ≤ b)
    | _, _ => false

/-- Maximum of f over the n+1 indices a, a+1, ..., a+n. -/
def maxOver (f : ℕ → ℚ) (a : ℕ) : ℕ → ℚ
  | 0 => f a
  | n + 1 => max (maxOver f a n) (f (a + n + 1))

/-- Minimum of f over the n+1 indices a, a+1, ..., a+n. -/
def minOver (f : ℕ → ℚ) (a : ℕ) : ℕ → ℚ
  | 0 => f a
  | n + 1 => min (minOver f a n) (f (a + n + 1))

/-- highest_prev of line 136: the rolling max of the high over the
lookback window (min_periods=1) shifted by one bar; NaN (none) at bar 0,
and the ffill of line 172 does not change that leading NaN. -/
def highest_prev (high : ℕ → ℚ) (w : ℕ) : ℕ → Option ℚ
  | 0 => none
  | t + 1 => some (maxOver high (t + 1 - min w (t + 1)) (min w (t + 1) - 1))

/-- lowest_prev of line 137, the mirror with the rolling min of the low. -/
def lowest_prev (low : ℕ → ℚ) (w : ℕ) : ℕ → Option ℚ
  | 0 => none
  | t + 1 => some (minOver low (t + 1 - min w (t + 1)) (min w (t + 1) - 1))

/-- break_up_15m of line 174: close above the prior-window high. -/
def break_up_15m (cfg : MultiTFConfig) (close high : ℕ → ℚ) (t : ℕ) : Bool :=
  match highest_prev high cfg.lookback_break_15m t with
  | some h2 => decide (h2 < close t)
  | none => false

/-- break_dn_15m of line 175: close below the prior-window low. -/
def break_dn_15m (cfg : MultiTFConfig) (close low : ℕ → ℚ) (t : ℕ) : Bool :=
  match lowest_prev low cfg.lookback_break_15m t with
  | some l2 => decide (close t < l2)
  | none => false

/-- trigger_15m_long of line 177.  The confirm_1h_long column (the Stage A
and B conjunction over the aligned 1d/4h/1h series, lines 152-155) enters
as a function argument; the aligned higher-timeframe machinery it is
built from is embedded separately (resample_ohlc, ffillLookup, rsiMTF). -/
def trigger_15m_long (cfg : MultiTFConfig) (close high : ℕ → ℚ)
    (confirm_1h_long : ℕ → Bool) (t : ℕ) : Bool :=
  confirm_1h_long t && cross_up_15m cfg close t
    && rsi_up_15m cfg close t && break_up_15m cfg close high t

/-- trigger_15m_short of line 178, the mirror. -/
def trigger_15m_short (cfg : MultiTFConfig) (close low : ℕ → ℚ)
    (confirm_1h_short : ℕ → Bool) (t : ℕ) : Bool :=
  confirm_1h_short t && cross_dn_15m cfg close t
    && rsi_dn_15m cfg close t && break_dn_15m cfg close low t

/-- The signal column of line 182: long trigger as int minus short trigger
as int. -/
def signalMTF (cfg : MultiTFConfig) (close high low : ℕ → ℚ)
    (confirm_1h_long confirm_1h_short : ℕ → Bool) (t : ℕ) : Int :=
  (if trigger_15m_long cfg close high confirm_1h_long t then 1 else 0)
    - (if trigger_15m_short cfg close low confirm_1h_short t then 1 else 0)

/-- macd_rsi_strategy.MACDRSIStrategyConfig with its defaults. -/
structure MACDRSIStrategyConfig where
  macd_fast : ℕ := 12
  macd_slow : ℕ := 26
  macd_signal : ℕ := 9
  rsi_period : ℕ := 14
  atr_period : ℕ := 14
  rsi_trend_high : ℚ := 55
  rsi_trend_low : ℚ := 45
  rsi_entry_upper : ℚ := 50
  rsi_entry_lower : ℚ := 50
  lookback_bars : ℕ := 20
  atr_sl_mult : ℚ := 5 / 2

/-- The ema200_15m column of MACDRSIStrategy.generate_signals. -/
def ema200_15m (close : ℕ → ℚ) : ℕ → ℚ := ema close 200

/-- The macd_15m column. -/
def mmacd (cfg : MACDRSIStrategyConfig) (close : ℕ → ℚ) : ℕ → ℚ :=
  macdLine close cfg.macd_fast cfg.macd_slow

/-- The macd_signal_15m column. -/
def mmacdSig (cfg : MACDRSIStrategyConfig) (close : ℕ → ℚ) : ℕ → ℚ :=
  macdSignalLine close cfg.macd_fast cfg.macd_slow cfg.macd_signal

/-- The macd_hist_15m column. -/
def mmacdHist (cfg : MACDRSIStrategyConfig) (close : ℕ → ℚ) : ℕ → ℚ :=
  macdHist close cfg.macd_fast cfg.macd_slow cfg.macd_signal

/-- The rsi_15m column of the macd_rsi strategy, by _calc_rsi. -/
def mrsi (cfg : MACDRSIStrategyConfig) (close : ℕ → ℚ) (t : ℕ) : Option ℚ :=
  rsiPlain close cfg.rsi_period t

/-- NaN-skipping minimum of an Option-valued series over the n indices
a, ..., a+n-1: none only when every entry is none, as pandas rolling min
with min_periods=1 behaves. -/
def minOptWindow (x : ℕ → Option ℚ) (a : ℕ) : ℕ → Option ℚ
  | 0 => none
  | n + 1 =>
    match minOptWindow x a n, x (a + n) with
    | none, o => o
    | some u, none => some u
    | some u, some w => some (min u w)

/-- NaN-skipping maximum over a window, the mirror of minOptWindow. -/
def maxOptWindow (x : ℕ → Option ℚ) (a : ℕ) : ℕ → Option ℚ
  | 0 => none
  | n + 1 =>
    match maxOptWindow x a n, x (a + n) with
    | none, o => o
    | some u, none => some u
    | some u, some w => some (max u w)

/-- rsi_min of line 150: rolling(lookback, min_periods=1).min() over the
NaN-able rsi. -/
def rsi_min (cfg : MACDRSIStrategyConfig) (close : ℕ → ℚ) (t : ℕ) : Option ℚ :=
  minOptWindow (mrsi cfg close) (t + 1 - min cfg.lookback_bars (t + 1))
    (min cfg.lookback_bars (t + 1))

/-- rsi_max of line 151, the mirror. -/
def rsi_max (cfg : MACDRSIStrategyConfig) (close : ℕ → ℚ) (t : ℕ) : Option ℚ :=
  maxOptWindow (mrsi cfg close) (t + 1 - min cfg.lookback_bars (t + 1))
    (min cfg.lookback_bars (t + 1))

/-- rsi_cross_up of lines 158-160; NaN on either side compares False. -/
def rsi_cross_up (cfg : MACDRSIStrategyConfig) (close : ℕ → ℚ) : ℕ → Bool
  | 0 => false
  | t + 1 =>
    match mrsi cfg close (t + 1), mrsi cfg close t with
    | some a, some b =>
      decide (cfg.rsi_entry_upper < a) && decide (b ≤ cfg.rsi_entry_upper)
    | _, _ => false

/-- rsi_cross_down of lines 177-179, the mirror. -/
def rsi_cross_down (cfg : MACDRSIStrategyConfig) (close : ℕ → ℚ) : ℕ → Bool
  | 0 => false
  | t + 1 =>
    match mrsi cfg close (t + 1), mrsi cfg close t with
    | some a, some b =>
      decide (a < cfg.rsi_entry_lower) && decide (cfg.rsi_entry_lower ≤ b)
    | _, _ => false

/-- rsi_had_pullback of line 161: the window minimum at or below the lower
threshold; an all-NaN window compares False. -/
def rsi_had_pullback (cfg : MACDRSIStrategyConfig) (close : ℕ → ℚ) (t : ℕ) : Bool :=
  match rsi_min cfg close t with
  | some m => decide (m ≤ cfg.rsi_entry_lower)
  | none => false

/-- rsi_had_rebound of line 180, the mirror with the window maximum. -/
def rsi_had_rebound (cfg : MACDRSIStrategyConfig) (close : ℕ → ℚ) (t : ℕ) : Bool :=
  match rsi_max cfg close t with
  | some m => decide (cfg.rsi_entry_upper ≤ m)
  | none => false

/-- macd_bull of lines 164-168: a bullish cross with a positive histogram
(bar 0 is False through the shifted NaN). -/
def macd_bull (cfg : MACDRSIStrategyConfig) (close : ℕ → ℚ) : ℕ → Bool
  | 0 => false
  | t + 1 =>
    decide (mmacdSig cfg close (t + 1) < mmacd cfg close (t + 1))
      && decide (mmacd cfg close t ≤ mmacdSig cfg close t)
      && decide (0 < mmacdHist cfg close (t + 1))

/-- macd_bear of lines 183-187, the strict mirror. -/
def macd_bear (cfg : MACDRSIStrategyConfig) (close : ℕ → ℚ) : ℕ → Bool
  | 0 => false
  | t + 1 =>
    decide (mmacd cfg close (t + 1) < mmacdSig cfg close (t + 1))
      && decide (mmacdSig cfg close t ≤ mmacd cfg close t)
      && decide (mmacdHist cfg close (t + 1) < 0)

/-- entry_long of line 170.  The trend_4h column (resampled and aligned,
_calc_trend_4h) enters as a function argument; its machinery is embedded
separately (resample_ohlc, ffillLookup, trendAligned). -/
def entry_long_m (cfg : MACDRSIStrategyConfig) (close : ℕ → ℚ)
    (trend_4h : ℕ → Int) (t : ℕ) : Bool :=
  (trend_4h t == 1) && decide (ema200_15m close t < close t)
    && rsi_cross_up cfg close t && rsi_had_pullback cfg close t
    && macd_bull cfg close t

/-- entry_short of line 189, the mirror. -/
def entry_short_m (cfg : MACDRSIStrategyConfig) (close : ℕ → ℚ)
    (trend_4h : ℕ → Int) (t : ℕ) : Bool :=
  (trend_4h t == -1) && decide (close t < ema200_15m close t)
    && rsi_cross_down cfg close t && rsi_had_rebound cfg close t
    && macd_bear cfg close t

/-- The signal column of line 221: entry_long as int minus entry_short as
int. -/
def signalMR (cfg : MACDRSIStrategyConfig) (close : ℕ → ℚ)
    (trend_4h : ℕ → Int) (t : ℕ) : Int :=
  (if entry_long_m cfg close trend_4h t then 1 else 0)
    - (if entry_short_m cfg close trend_4h t then 1 else 0)

lemma stepState_mem (s : Int) (a b c d : Bool)
    (hs : s = -1 ∨ s = 0 ∨ s = 1) :
    stepState s a b c d = -1 ∨ stepState s a b c d = 0 ∨ stepState s a b c d = 1 := by
  rcases hs with h | h | h <;> subst h <;>
    cases a <;> cases b <;> cases c <;> cases d <;> decide

/-- C10: every engine emits signals only in {-1, 0, 1}: the multi-TF and
macd_rsi long and short triggers are mutually exclusive at every bar
(their crosses demand strictly opposite EMA or MACD inequalities), their
trigger-difference signals stay in the range, and the simple engine fold
state stays in the range from its Flat start. -/
theorem c10_signal_range :
    (∀ (cfg : MultiTFConfig) (close high low : ℕ → ℚ)
        (confirmL confirmS : ℕ → Bool) (t : ℕ),
        ¬(trigger_15m_long cfg close high confirmL t = true
            ∧ trigger_15m_short cfg close low confirmS t = true)
        ∧ (signalMTF cfg close high low confirmL confirmS t = -1
            ∨ signalMTF cfg close high low confirmL confirmS t = 0
            ∨ signalMTF cfg close high low confirmL confirmS t = 1))
      ∧ (∀ (cfg : MACDRSIStrategyConfig) (close : ℕ → ℚ) (trend : ℕ → Int) (t : ℕ),
          ¬(entry_long_m cfg close trend t = true ∧ entry_short_m cfg close trend t = true)
          ∧ (signalMR cfg close trend t = -1 ∨ signalMR cfg close trend t = 0
              ∨ signalMR cfg close trend t = 1))
      ∧ (∀ (cfg : SimpleMACDStrategyConfig) (close : ℕ → ℚ) (t : ℕ),
          simple_signal cfg close t = -1 ∨ simple_signal cfg close t = 0
            ∨ simple_signal cfg close t = 1) := by
  refine ⟨fun cfg close high low confirmL confirmS t => ⟨?_, ?_⟩,
    fun cfg close trend t => ⟨?_, ?_⟩, fun cfg close t => ?_⟩
  · rintro ⟨hl, hs⟩
    rw [trigger_15m_long] at hl
    rw [trigger_15m_short] at hs
    simp only [Bool.and_eq_true] at hl hs
    cases t with
    | zero => exact absurd hl.1.1.2 (by rw [cross_up_15m]; simp)
    | succ t =>
      have h1 := hl.1.1.2
      have h2 := hs.1.1.2
      rw [cross_up_15m] at h1
      rw [cross_dn_15m] at h2
      simp only [Bool.and_eq_true, decide_eq_true_eq] at h1 h2
      exact absurd h2.1 (not_lt.mpr h1.1.le)
  · rw [signalMTF]
    rcases trigger_15m_long cfg close high confirmL t <;>
      rcases trigger_15m_short cfg close low confirmS t <;> simp
  · rintro ⟨hl, hs⟩
    rw [entry_long_m] at hl
    rw [entry_short_m] at hs
    simp only [Bool.and_eq_true] at hl hs
    cases t with
    | zero => exact absurd hl.2 (by rw [macd_bull]; simp)
    | succ t =>
      have h1 := hl.2
      have h2 := hs.2
      rw [macd_bull] at h1
      rw [macd_bear] at h2
      simp only [Bool.and_eq_true, decide_eq_true_eq] at h1 h2
      exact absurd h2.1.1 (not_lt.mpr h1.1.1.le)
  · rw [signalMR]
    rcases entry_long_m cfg close trend t <;>
      rcases entry_short_m cfg close trend t <;> simp
  · induction t with
    | zero =>
      rw [simple_signal]
      exact stepState_mem 0 _ _ _ _ (Or.inr (Or.inl rfl))
    | succ t ih =>
      rw [simple_signal]
      exact stepState_mem _ _ _ _ _ ih

end CryptoBot
